import Mathlib

/-!
# The xhb adapter: wire-request shaping and bid translation

A shallow embedding of `adapters/xhb/xhb.go`.

* Go values are Lean values; a Go pointer that may be `nil` is an `Option`.
* A Go `error` is represented by its message, a Go `string` by a Lean `String`; `fmt.Sprintf`
  with `%s` and `%d` is concatenation with the decimal rendering of the integer.
* A `float64` is represented by the rational number it denotes: the code only
  copies such values and compares them with zero.
* Calls that leave the file (the canonical request builder, the JSON codec,
  `http.NewRequest`, the HTTP round trip) are fields of `Env`, so every theorem
  about `Call` holds for all behaviours of those collaborators.
* `Call` returns, next to the Go return values, the HTTP requests it handed to
  the transport and the bidder's debug list as it stands afterwards.  A Go
  run-time panic is an outcome of its own.
-/

namespace Xhb

/-! ## Data model -/

/-- Go `float64`, represented by the rational it denotes. -/
abbrev Float64 := Rat

/-- Either a value or a Go `error` (its message). -/
inductive Result (α : Type) where
  | ok (v : α)
  | err (msg : String)
deriving DecidableEq

/-- The type `KeyVal` of xhb.go. -/
structure KeyVal where
  Key : String
  Values : List String
deriving DecidableEq

/-- The type `appnexusParams` of xhb.go: the decoded parameter blob of an ad unit. -/
structure appnexusParams where
  PlacementId : Int
  InvCode : String
  Member : String
  Keywords : List KeyVal
  TrafficSourceCode : String
  Reserve : Float64
  Position : String
deriving DecidableEq

/-- The type `appnexusImpExtAppnexus` of xhb.go. -/
structure appnexusImpExtAppnexus where
  PlacementID : Int
  Keywords : String
  TrafficSourceCode : String
deriving DecidableEq

/-- The type `appnexusImpExt` of xhb.go. -/
structure appnexusImpExt where
  Appnexus : appnexusImpExtAppnexus
deriving DecidableEq

/-- The value `openrtb.AdPositionAboveTheFold`. -/
def AdPositionAboveTheFold : Int := 1

/-- The value `openrtb.AdPositionBelowTheFold`. -/
def AdPositionBelowTheFold : Int := 3

/-- The fields of `openrtb.Banner` the adapter touches, with the sizes the builder fills in. -/
structure Banner where
  W : Nat
  H : Nat
  Pos : Option Int
deriving DecidableEq

/-- A populated `openrtb.Video` object. -/
structure Video where
  MIMEs : List String
deriving DecidableEq

/-- The fields of `openrtb.Imp` the adapter reads or writes.  `Ext` is the raw JSON text. -/
structure Imp where
  ID : String
  Banner : Option Banner
  Video : Option Video
  TagID : String
  BidFloor : Float64
  Ext : String
deriving DecidableEq

/-- The type `openrtb.BidRequest`: an identifier and the impression list. -/
structure BidRequest where
  ID : String
  Imp : List Imp
deriving DecidableEq

/-- The fields of `openrtb.Bid` the adapter reads. -/
structure Bid where
  ImpID : String
  Price : Float64
  AdM : String
  CrID : String
  W : Nat
  H : Nat
  DealID : String
  NURL : String
deriving DecidableEq

/-- The type `openrtb.SeatBid`: one seat group of a response. -/
structure SeatBid where
  Bid : List Bid
  Seat : String
deriving DecidableEq

/-- The type `openrtb.BidResponse`. -/
structure BidResponse where
  SeatBid : List SeatBid
deriving DecidableEq

/-- The type `pbs.MediaType`. -/
inductive MediaType where
  | MEDIA_TYPE_BANNER
  | MEDIA_TYPE_VIDEO
deriving DecidableEq

/-- The fields of `pbs.PBSAdUnit` used here: the unit code, the bid identifier asked for by the
publisher, the media types and sizes configured for the unit, and the raw parameter blob. -/
structure PBSAdUnit where
  Code : String
  BidID : String
  MediaTypes : List MediaType
  Sizes : List (Nat × Nat)
  Params : String
deriving DecidableEq

/-- The type `pbs.BidderDebug`. -/
structure BidderDebug where
  RequestURI : String
  RequestBody : String
  ResponseBody : String
  StatusCode : Int
deriving DecidableEq

/-- The type `pbs.PBSBid`, with the fields `Call` fills in. -/
structure PBSBid where
  BidID : String
  AdUnitCode : String
  BidderCode : String
  Price : Float64
  Adm : String
  Creative_id : String
  Width : Nat
  Height : Nat
  DealId : Int
  NURL : String
  CreativeMediaType : String
deriving DecidableEq

/-- The part of `pbs.PBSRequest` that `Call` reads. -/
structure PBSRequest where
  IsDebug : Bool
deriving DecidableEq

/-- The type `pbs.PBSBidder`.  Its method `LookupBidID` is declared outside xhb.go and is carried
as a field, so nothing is assumed about how the lookup is done. -/
structure PBSBidder where
  BidderCode : String
  AdUnits : List PBSAdUnit
  Debug : List BidderDebug
  LookupBidID : String → String

/-- The type `pbs.UsersyncInfo`. -/
structure UsersyncInfo where
  URL : String
  /-- The field `Type` of the Go struct. -/
  SyncType : String
  SupportCORS : Bool
deriving DecidableEq

/-- The type `XhbAdapter`; the shared HTTP client is reached through `Env.Do`. -/
structure XhbAdapter where
  URI : String
  usersyncInfo : UsersyncInfo
deriving DecidableEq

/-- An outgoing `http.Request`. -/
structure HTTPRequest where
  Method : String
  URL : String
  Header : List (String × String)
  Body : String
deriving DecidableEq

/-- An incoming `http.Response`: the status code and what `ioutil.ReadAll` gives for the body. -/
structure HTTPResponse where
  StatusCode : Int
  Body : Result String
deriving DecidableEq

/-- The collaborators of `Call` that live outside xhb.go. -/
structure Env where
  /-- The function `adapters.MakeOpenRTBGeneric`. -/
  MakeOpenRTBGeneric : PBSRequest → PBSBidder → String → List MediaType → Bool → Result BidRequest
  /-- The call `json.Unmarshal(unit.Params, &params)`. -/
  unmarshalParams : String → Result appnexusParams
  /-- The call `json.Marshal(&impExt)`; it cannot fail on a struct of an int and two strings. -/
  marshalImpExt : appnexusImpExt → String
  /-- The call `json.Marshal(anReq)`. -/
  marshalBidRequest : BidRequest → Result String
  /-- Whether `http.NewRequest(method, url, body)` yields a request (method and URL are valid). -/
  newRequestOk : String → String → Bool
  /-- The round trip `ctxhttp.Do(ctx, a.http.Client, httpReq)`, deadline included. -/
  Do : HTTPRequest → Result HTTPResponse
  /-- The call `json.Unmarshal(body, &bidResp)`. -/
  unmarshalBidResponse : String → Result BidResponse

/-- What a run of `Call` ends in. -/
inductive Outcome where
  /-- The statement `return bids, nil` (a nil slice is the empty list). -/
  | bids (bs : List PBSBid)
  /-- The statement `return nil, err`. -/
  | error (msg : String)
  /-- A run-time panic: no return at all. -/
  | panic
deriving DecidableEq

/-- The observable result of `Call`. -/
structure CallResult where
  out : Outcome
  /-- The requests handed to `ctxhttp.Do`, oldest first. -/
  requests : List HTTPRequest
  /-- The list `bidder.Debug` after the call. -/
  Debug : List BidderDebug
deriving DecidableEq

/-- How the loop over the ad units ends. -/
inductive LoopResult where
  | done (uri : String) (imps : List Imp)
  | error (msg : String)
  | panic
deriving DecidableEq

/-! ## The adapter -/

/-- The method `FamilyName`. -/
def XhbAdapter.FamilyName (_a : XhbAdapter) : String := "xhb"

/-- The method `Name`. -/
def XhbAdapter.Name (_a : XhbAdapter) : String := "xhb"

/-- The method `SkipNoCookies`. -/
def XhbAdapter.SkipNoCookies (_a : XhbAdapter) : Bool := false

/-- The method `GetUsersyncInfo`. -/
def XhbAdapter.GetUsersyncInfo (a : XhbAdapter) : UsersyncInfo := a.usersyncInfo

/-- The function `NewXhbAdapter`; `queryEscape` is `url.QueryEscape`. -/
def NewXhbAdapter (queryEscape : String → String) (externalURL : String) : XhbAdapter :=
  let redirect_uri := externalURL ++ "/setuid?bidder=adnxs&uid=$UID"
  let usersyncURL := "//ib.adnxs.com/getuid?"
  { URI := "http://ib.adnxs.com/openrtb2"
    usersyncInfo := { URL := usersyncURL ++ queryEscape redirect_uri, SyncType := "redirect", SupportCORS := false } }

/-- The inner loop of lines 114-116: one `key=value` item per value, appended to `kvs`. -/
def appendValues (key : String) : List String → List String → List String
  | kvs, [] => kvs
  | kvs, val :: rest => appendValues key (kvs ++ [key ++ "=" ++ val]) rest

/-- The loop of lines 110-119 over `params.Keywords`, started from `kvs`. -/
def appendKeywords : List String → List KeyVal → List String
  | kvs, [] => kvs
  | kvs, kv :: rest =>
    if kv.Values.length = 0 then appendKeywords (kvs ++ [kv.Key]) rest
    else appendKeywords (appendValues kv.Key kvs kv.Values) rest

/-- The value `keywordStr` of line 121: `strings.Join(kvs, ",")`. -/
def keywordStr (keywords : List KeyVal) : String :=
  String.intercalate "," (appendKeywords [] keywords)

/-- The value `impExt` of lines 123-127. -/
def mkImpExt (params : appnexusParams) : appnexusImpExt :=
  { Appnexus := { PlacementID := params.PlacementId
                  TrafficSourceCode := params.TrafficSourceCode
                  Keywords := keywordStr params.Keywords } }

/-- Lines 101-107: the position override on the banner of an impression. -/
def setBannerPos (position : String) (banner : Option Banner) : Option Banner :=
  match banner with
  | none => none
  | some b =>
    if position ≠ "" then
      if position = "above" then some { b with Pos := some AdPositionAboveTheFold }
      else if position = "below" then some { b with Pos := some AdPositionBelowTheFold }
      else some b
    else some b

/-- Lines 90-128 for one ad unit whose impression `anReq.Imp[i]` exists: the writes to it. -/
def shapeImp (env : Env) (params : appnexusParams) (imp : Imp) : Imp :=
  let imp1 := if params.InvCode ≠ "" then { imp with TagID := params.InvCode } else imp
  let imp2 := if params.Reserve > 0 then { imp1 with BidFloor := params.Reserve } else imp1
  let imp3 := { imp2 with Banner := setBannerPos params.Position imp2.Banner }
  { imp3 with Ext := env.marshalImpExt (mkImpExt params) }

/-- Lines 90-96: the destination URI after one ad unit. -/
def nextURI (aURI : String) (params : appnexusParams) (uri : String) : String :=
  if params.InvCode ≠ "" ∧ params.Member ≠ "" then aURI ++ "?member_id=" ++ params.Member else uri

/-- Line 86: the ad unit names neither a placement nor a member with an inventory code. -/
def missingIdentification (params : appnexusParams) : Prop :=
  params.PlacementId = 0 ∧ (params.InvCode = "" ∨ params.Member = "")

instance (params : appnexusParams) : Decidable (missingIdentification params) := by
  unfold missingIdentification; infer_instance

/-- The loop of lines 79-129 from index `i` on, over the ad units still to visit, with the
current `uri` and impression list.  Every access `anReq.Imp[i]` is bounds-checked by Go and
panics when `i` is not an index of the list; the first such access of an iteration is reached
exactly when the parameters decode and pass line 86 (line 101 reads `anReq.Imp[i]` always). -/
def shapeLoop (env : Env) (aURI : String) : Nat → List PBSAdUnit → String → List Imp → LoopResult
  | _, [], uri, imps => .done uri imps
  | i, unit :: rest, uri, imps =>
    match env.unmarshalParams unit.Params with
    | .err e => .error e
    | .ok params =>
      if missingIdentification params then
        .error "No placement or member+invcode provided"
      else
        match imps[i]? with
        | none => .panic
        | some imp =>
          shapeLoop env aURI (i + 1) rest (nextURI aURI params uri)
            (imps.set i (shapeImp env params imp))

/-- The function `getMediaTypeForImp`. -/
def getMediaTypeForImp (impId : String) : List Imp → String
  | [] => "banner"
  | imp :: rest =>
    if imp.ID = impId then
      (match imp.Video with
       | some _ => "video"
       | none => "banner")
    else getMediaTypeForImp impId rest

/-- Lines 193-207: the bid built for one reported bid whose lookup gave `bidID`. -/
def mkPBSBid (bidder : PBSBidder) (imps : List Imp) (bidID : String) (bid : Bid) : PBSBid :=
  { BidID := bidID
    AdUnitCode := bid.ImpID
    BidderCode := bidder.BidderCode
    Price := 0.01
    Adm := bid.AdM
    Creative_id := bid.CrID
    Width := bid.W
    Height := bid.H
    DealId := 99999999
    NURL := bid.NURL
    CreativeMediaType := getMediaTypeForImp bid.ImpID imps }

/-- The inner loop of lines 185-209 over the bids of one seat group, appending to `bids`. -/
def translateBids (bidder : PBSBidder) (imps : List Imp) : List PBSBid → List Bid → Result (List PBSBid)
  | bids, [] => .ok bids
  | bids, bid :: rest =>
    let bidID := bidder.LookupBidID bid.ImpID
    if bidID = "" then .err ("Unknown ad unit code \x27" ++ bid.ImpID ++ "\x27")
    else translateBids bidder imps (bids ++ [mkPBSBid bidder imps bidID bid]) rest

/-- The outer loop of lines 184-210 over the seat groups. -/
def translateSeatBids (bidder : PBSBidder) (imps : List Imp) : List PBSBid → List SeatBid → Result (List PBSBid)
  | bids, [] => .ok bids
  | bids, sb :: rest =>
    match translateBids bidder imps bids sb.Bid with
    | .err e => .err e
    | .ok bids1 => translateSeatBids bidder imps bids1 rest

/-- The list `supportedMediaTypes` of line 72. -/
def supportedMediaTypes : List MediaType := [.MEDIA_TYPE_BANNER, .MEDIA_TYPE_VIDEO]

/-- The request of lines 145-147. -/
def mkHTTPRequest (uri reqJSON : String) : HTTPRequest :=
  { Method := "POST"
    URL := uri
    Header := [("Content-Type", "application/json;charset=utf-8"), ("Accept", "application/json")]
    Body := reqJSON }

/-- Lines 154-212: what `Call` does with the response `anResp`, given the shaped impressions and
the debug record so far.  Returns the outcome and the debug record as it stands at the end. -/
def handleResponse (env : Env) (req : PBSRequest) (bidder : PBSBidder) (imps : List Imp)
    (debug : BidderDebug) (anResp : HTTPResponse) : Outcome × BidderDebug :=
  let debug1 := { debug with StatusCode := anResp.StatusCode }
  if anResp.StatusCode = 204 then (.bids [], debug1)
  else
    match anResp.Body with
    | .err e => (.error e, debug1)
    | .ok responseBody =>
      if anResp.StatusCode ≠ 200 then
        (.error ("HTTP status " ++ toString anResp.StatusCode ++ "; body: " ++ responseBody), debug1)
      else
        let debug2 := if req.IsDebug then { debug1 with ResponseBody := responseBody } else debug1
        match env.unmarshalBidResponse responseBody with
        | .err e => (.error e, debug2)
        | .ok bidResp =>
          match translateSeatBids bidder imps [] bidResp.SeatBid with
          | .err e => (.error e, debug2)
          | .ok bids => (.bids bids, debug2)

/-- The list `bidder.Debug` after the call: the record is appended only in debug mode, and
being appended as a pointer it shows the later writes to the record. -/
def debugList (req : PBSRequest) (bidder : PBSBidder) (debug : BidderDebug) : List BidderDebug :=
  if req.IsDebug then bidder.Debug ++ [debug] else bidder.Debug

/-- The method `XhbAdapter.Call`. -/
def Call (env : Env) (a : XhbAdapter) (req : PBSRequest) (bidder : PBSBidder) : CallResult :=
  match env.MakeOpenRTBGeneric req bidder a.FamilyName supportedMediaTypes true with
  | .err e => ⟨.error e, [], bidder.Debug⟩
  | .ok anReq =>
    match shapeLoop env a.URI 0 bidder.AdUnits a.URI anReq.Imp with
    | .error e => ⟨.error e, [], bidder.Debug⟩
    | .panic => ⟨.panic, [], bidder.Debug⟩
    | .done uri imps =>
      match env.marshalBidRequest { anReq with Imp := imps } with
      | .err e => ⟨.error e, [], bidder.Debug⟩
      | .ok reqJSON =>
        let debug : BidderDebug :=
          { RequestURI := uri, RequestBody := if req.IsDebug then reqJSON else "",
            ResponseBody := "", StatusCode := 0 }
        -- line 145 drops the error of http.NewRequest; line 146 dereferences the request
        if env.newRequestOk "POST" uri = false then ⟨.panic, [], debugList req bidder debug⟩
        else
          let httpReq := mkHTTPRequest uri reqJSON
          match env.Do httpReq with
          | .err e => ⟨.error e, [httpReq], debugList req bidder debug⟩
          | .ok anResp =>
            let r := handleResponse env req bidder imps debug anResp
            ⟨r.1, [httpReq], debugList req bidder r.2⟩

/-! ## Vocabulary of the statements -/

/-- The reported bids of a response in response order: seat groups in order, and the bids of a
group in order. -/
def allBids : List SeatBid → List Bid
  | [] => []
  | sb :: rest => sb.Bid ++ allBids rest

/-- The first reported bid of `bs` whose impression id the lookup of `bidder` does not know. -/
def firstMiss (bidder : PBSBidder) (bs : List Bid) : Option Bid :=
  bs.find? fun b => decide (bidder.LookupBidID b.ImpID = "")

/-- The bid `pb` carries what the reported bid `b` says, under the lookup of `bidder`. -/
def ProducedFrom (bidder : PBSBidder) (pb : PBSBid) (b : Bid) : Prop :=
  pb.BidID = bidder.LookupBidID b.ImpID ∧ pb.AdUnitCode = b.ImpID ∧ pb.Adm = b.AdM ∧
    pb.Creative_id = b.CrID ∧ pb.Width = b.W ∧ pb.Height = b.H ∧ pb.NURL = b.NURL

/-- What the two translation loops compute, read off the flattened response: an error for the
first miss, else the bids in order. -/
def translated (bidder : PBSBidder) (imps : List Imp) (acc : List PBSBid) (bs : List Bid) :
    Result (List PBSBid) :=
  match firstMiss bidder bs with
  | some b => .err ("Unknown ad unit code \x27" ++ b.ImpID ++ "\x27")
  | none => .ok (acc ++ bs.map fun b => mkPBSBid bidder imps (bidder.LookupBidID b.ImpID) b)

/-- The targeting items as the spec words them: visiting the keywords in order, a keyword with no
values gives its bare key, and any other keyword gives one `key=value` item per value, in value
order. -/
def keywordItems : List KeyVal → List String
  | [] => []
  | kv :: rest =>
    (if kv.Values = [] then [kv.Key] else kv.Values.map fun v => kv.Key ++ "=" ++ v)
      ++ keywordItems rest

/-- Whether `needle` occurs in `hay` as a run of consecutive characters. -/
def occursIn (needle hay : String) : Bool :=
  hay.data.tails.any fun t => needle.data.isPrefixOf t

/-! ## A concrete environment for worked examples -/

/-- Modelled from the spec: the canonical request builder `adapters.MakeOpenRTBGeneric`, whose
body is not in the source files at hand.  It yields one impression per ad unit, in order, named
by the unit code and carrying a banner or video placeholder for each media type of the unit that
the partner supports; an ad unit whose media types do not meet the supported set is left out
and the request still succeeds. -/
def specMakeOpenRTBGeneric (_req : PBSRequest) (bidder : PBSBidder) (_family : String)
    (mediaTypes : List MediaType) (_singleMediaTypeImp : Bool) : Result BidRequest :=
  .ok { ID := ""
        Imp := bidder.AdUnits.filterMap fun unit =>
          if unit.MediaTypes.any (fun m => mediaTypes.contains m) then
            some { ID := unit.Code
                   Banner :=
                     if unit.MediaTypes.contains .MEDIA_TYPE_BANNER
                        && mediaTypes.contains .MEDIA_TYPE_BANNER then
                       some { W := (unit.Sizes.headD (0, 0)).1, H := (unit.Sizes.headD (0, 0)).2,
                              Pos := none }
                     else none
                   Video :=
                     if unit.MediaTypes.contains .MEDIA_TYPE_VIDEO
                        && mediaTypes.contains .MEDIA_TYPE_VIDEO then
                       some { MIMEs := [] }
                     else none
                   TagID := ""
                   BidFloor := 0
                   Ext := "" }
          else none }

/-- The parameter blobs used in the worked examples, with what `json.Unmarshal` decodes them to;
the empty blob is not JSON and is rejected with the codec's message for it. -/
def exampleUnmarshalParams (blob : String) : Result appnexusParams :=
  let zero : appnexusParams :=
    { PlacementId := 0, InvCode := "", Member := "", Keywords := [], TrafficSourceCode := "",
      Reserve := 0, Position := "" }
  if blob = "\x7b\x7d" then .ok zero
  else if blob = "\x7b\"placementId\":123\x7d" then .ok { zero with PlacementId := 123 }
  else if blob = "\x7b\"invCode\":\"abc\",\"member\":\"42\"\x7d" then
    .ok { zero with InvCode := "abc", Member := "42" }
  else if blob = "\x7b\"placementId\":123,\"keywords\":[\x7b\"key\":\"age\",\"value\":[\"18\",\"25\"]\x7d]\x7d" then
    .ok { zero with PlacementId := 123, Keywords := [{ Key := "age", Values := ["18", "25"] }] }
  else .err "unexpected end of JSON input"

/-- The JSON text of an `appnexusImpExt`, for strings that need no escaping: empty fields are
left out, as the `omitempty` tags ask. -/
def exampleMarshalImpExt (e : appnexusImpExt) : String :=
  let fields :=
    (if e.Appnexus.PlacementID = 0 then [] else ["\"placement_id\":" ++ toString e.Appnexus.PlacementID])
    ++ (if e.Appnexus.Keywords = "" then [] else ["\"keywords\":\"" ++ e.Appnexus.Keywords ++ "\""])
    ++ (if e.Appnexus.TrafficSourceCode = "" then []
        else ["\"traffic_source_code\":\"" ++ e.Appnexus.TrafficSourceCode ++ "\""])
  "\x7b\"appnexus\":\x7b" ++ String.intercalate "," fields ++ "\x7d\x7d"

/-- A stand-in for the JSON text of the bid request: the identifier, tag and extension of each
impression. -/
def exampleMarshalBidRequest (r : BidRequest) : Result String :=
  .ok ("\x7b\"imp\":[" ++ String.intercalate ","
    (r.Imp.map fun imp =>
      "\x7b\"id\":\"" ++ imp.ID ++ "\",\"tagid\":\"" ++ imp.TagID ++ "\",\"ext\":" ++ imp.Ext ++ "\x7d")
    ++ "]\x7d")

/-- The environment of the worked examples: the partner answers every request with `answer`, and
a body that is read decodes to `decoded`. -/
def exampleEnv (answer : Result HTTPResponse) (decoded : Result BidResponse) : Env :=
  { MakeOpenRTBGeneric := specMakeOpenRTBGeneric
    unmarshalParams := exampleUnmarshalParams
    marshalImpExt := exampleMarshalImpExt
    marshalBidRequest := exampleMarshalBidRequest
    newRequestOk := fun _ _ => true
    Do := fun _ => answer
    unmarshalBidResponse := fun _ => decoded }

/-- The adapter as `NewXhbAdapter` builds it (the sync URL plays no part in `Call`). -/
def exampleAdapter : XhbAdapter := NewXhbAdapter id "http://localhost"

/-- A banner ad unit with code `code`, bid identifier `bidID` and parameter blob `blob`. -/
def bannerUnit (code bidID blob : String) : PBSAdUnit :=
  { Code := code, BidID := bidID, MediaTypes := [.MEDIA_TYPE_BANNER], Sizes := [(300, 250)],
    Params := blob }

/-- Modelled from the spec: the method `LookupBidID` of `pbs.PBSBidder`, whose body is not in the
source files at hand: the reverse lookup from a wire-level impression identifier, which is an
ad-unit code, to the bid identifier the publisher asked for; it gives the empty string when no
ad unit has the code. -/
def specLookupBidID (units : List PBSAdUnit) (code : String) : String :=
  match units.find? (fun u => u.Code = code) with
  | some u => u.BidID
  | none => ""

/-- A bidder over the given ad units, with the lookup of `specLookupBidID`. -/
def exampleBidder (units : List PBSAdUnit) : PBSBidder :=
  { BidderCode := "xhb"
    AdUnits := units
    Debug := []
    LookupBidID := specLookupBidID units }

/-- A reported bid for impression `impID` at price `price`. -/
def exampleBid (impID : String) (price : Float64) : Bid :=
  { ImpID := impID, Price := price, AdM := "<div>ad</div>", CrID := "cr-1", W := 300, H := 250,
    DealID := "", NURL := "http://win.example/n" }

/-! ## Worked inputs -/

/-- The blob of an ad unit that names placement 123. -/
def placementBlob : String := "\x7b\"placementId\":123\x7d"

/-- The blob of an ad unit that names inventory code `abc` of member `42` and no placement. -/
def invCodeBlob : String := "\x7b\"invCode\":\"abc\",\"member\":\"42\"\x7d"

/-- The blob of an ad unit that names placement 123 and the keyword `age` with two values. -/
def keywordBlob : String :=
  "\x7b\"placementId\":123,\"keywords\":[\x7b\"key\":\"age\",\"value\":[\"18\",\"25\"]\x7d]\x7d"

/-- The request sent for the single ad unit `u1` with `placementBlob`. -/
def placementRequest : HTTPRequest :=
  mkHTTPRequest "http://ib.adnxs.com/openrtb2"
    "\x7b\"imp\":[\x7b\"id\":\"u1\",\"tagid\":\"\",\"ext\":\x7b\"appnexus\":\x7b\"placement_id\":123\x7d\x7d\x7d]\x7d"

/-- A bidder with the single banner ad unit `u1` (bid identifier `b1`) naming placement 123. -/
def placementBidder : PBSBidder := exampleBidder [bannerUnit "u1" "b1" placementBlob]

/-- A response with two seat groups: two bids for `u1`, then one more bid for `u1`. -/
def threeBids : BidResponse :=
  { SeatBid := [{ Bid := [exampleBid "u1" 2.5, exampleBid "u1" 1], Seat := "s1" },
                { Bid := [exampleBid "u1" 3], Seat := "s2" }] }

/-- A response whose second bid names the impression `u9`, which the request does not have. -/
def strayBid : BidResponse :=
  { SeatBid := [{ Bid := [exampleBid "u1" 2.5], Seat := "s1" },
                { Bid := [exampleBid "u9" 1], Seat := "s2" }] }

/-- The blob `{}`: valid JSON that names no placement, inventory code or member. -/
def emptyObjectBlob : String := "\x7b\x7d"

/-- An environment whose transport is never reached in the examples that use it. -/
def idleEnv : Env := exampleEnv (.err "no route to host") (.err "")

/-- Two ad units: the first names placement 123, the second lacks identification. -/
def placedThenUnidentified : PBSBidder :=
  exampleBidder [bannerUnit "u1" "b1" placementBlob, bannerUnit "u2" "b2" emptyObjectBlob]

/-- Two ad units: the blob of the first is not JSON, the second lacks identification. -/
def garbledThenUnidentified : PBSBidder :=
  exampleBidder [bannerUnit "u1" "b1" "", bannerUnit "u2" "b2" emptyObjectBlob]

/-- Two ad units naming placement 123; the second has no media type configured, so the builder
leaves it out. -/
def secondUnitLeftOut : PBSBidder :=
  exampleBidder [bannerUnit "u1" "b1" placementBlob,
    { bannerUnit "u2" "b2" placementBlob with MediaTypes := [] }]

/-- One ad unit naming inventory code `abc` of member `42` and no placement. -/
def invCodeBidder : PBSBidder := exampleBidder [bannerUnit "u1" "b1" invCodeBlob]

/-- The request sent for `invCodeBidder`. -/
def invCodeRequest : HTTPRequest :=
  mkHTTPRequest "http://ib.adnxs.com/openrtb2?member_id=42"
    "\x7b\"imp\":[\x7b\"id\":\"u1\",\"tagid\":\"abc\",\"ext\":\x7b\"appnexus\":\x7b\x7d\x7d\x7d]\x7d"

/-- One ad unit naming placement 123 and the keyword `age` with the values `18` and `25`. -/
def keywordBidder : PBSBidder := exampleBidder [bannerUnit "u1" "b1" keywordBlob]

/-- The request sent for `keywordBidder`. -/
def keywordRequest : HTTPRequest :=
  mkHTTPRequest "http://ib.adnxs.com/openrtb2"
    "\x7b\"imp\":[\x7b\"id\":\"u1\",\"tagid\":\"\",\"ext\":\x7b\"appnexus\":\x7b\"placement_id\":123,\"keywords\":\"age=18,age=25\"\x7d\x7d\x7d]\x7d"

/-- The bid `Call` returns for a reported bid of `exampleBid` for `u1` under `placementBidder`. -/
def u1Bid : PBSBid :=
  { BidID := "b1", AdUnitCode := "u1", BidderCode := "xhb", Price := 0.01, Adm := "<div>ad</div>",
    Creative_id := "cr-1", Width := 300, Height := 250, DealId := 99999999,
    NURL := "http://win.example/n", CreativeMediaType := "banner" }

/-! ## Reading the response in order -/

theorem translateBids_eq (bidder : PBSBidder) (imps : List Imp) (bs : List Bid) :
    ∀ acc, translateBids bidder imps acc bs = translated bidder imps acc bs := by
  induction bs with
  | nil => intro acc; simp [translateBids, translated, firstMiss]
  | cons b rest ih =>
    intro acc
    by_cases h : bidder.LookupBidID b.ImpID = ""
    · simp [translateBids, translated, firstMiss, h]
    · have := ih (acc ++ [mkPBSBid bidder imps (bidder.LookupBidID b.ImpID) b])
      simp only [translated, firstMiss] at this
      simp [translateBids, translated, firstMiss, h, this]

theorem translated_append (bidder : PBSBidder) (imps : List Imp) (acc : List PBSBid)
    (xs ys : List Bid) :
    translated bidder imps acc (xs ++ ys) =
      match translated bidder imps acc xs with
      | .err e => .err e
      | .ok acc1 => translated bidder imps acc1 ys := by
  unfold translated firstMiss
  rw [List.find?_append]
  cases h : List.find? (fun b => decide (bidder.LookupBidID b.ImpID = "")) xs with
  | some b => simp
  | none =>
    cases h2 : List.find? (fun b => decide (bidder.LookupBidID b.ImpID = "")) ys with
    | some b => simp
    | none => simp

theorem translateSeatBids_eq (bidder : PBSBidder) (imps : List Imp) (sbs : List SeatBid) :
    ∀ acc, translateSeatBids bidder imps acc sbs = translated bidder imps acc (allBids sbs) := by
  induction sbs with
  | nil => intro acc; simp [translateSeatBids, translated, firstMiss, allBids]
  | cons sb rest ih =>
    intro acc
    rw [translateSeatBids, translateBids_eq, allBids, translated_append]
    cases h : translated bidder imps acc sb.Bid with
    | err e => rfl
    | ok acc1 => simpa using ih acc1

/-- A list mapped by `f` is related to itself entry by entry as soon as every entry is related
to its image. -/
theorem forall₂_map_of_forall {α β : Type} (P : β → α → Prop) (f : α → β) (l : List α)
    (h : ∀ x ∈ l, P (f x) x) : List.Forall₂ P (l.map f) l := by
  induction l with
  | nil => exact List.Forall₂.nil
  | cons x rest ih =>
    exact List.Forall₂.cons (h x (List.mem_cons_self _ _))
      (ih fun y hy => h y (List.mem_cons_of_mem _ hy))

/-! ## The loop over the ad units -/

theorem appendValues_eq (key : String) (vals : List String) :
    ∀ kvs, appendValues key kvs vals = kvs ++ vals.map fun v => key ++ "=" ++ v := by
  induction vals with
  | nil => intro kvs; simp [appendValues]
  | cons v rest ih => intro kvs; simp [appendValues, ih]

theorem appendKeywords_eq (ks : List KeyVal) :
    ∀ kvs, appendKeywords kvs ks = kvs ++ keywordItems ks := by
  induction ks with
  | nil => intro kvs; simp [appendKeywords, keywordItems]
  | cons kv rest ih =>
    intro kvs
    by_cases h : kv.Values = []
    · simp [appendKeywords, keywordItems, h, ih]
    · have hlen : kv.Values.length ≠ 0 := fun hl => h (List.length_eq_zero.mp hl)
      simp [appendKeywords, keywordItems, h, hlen, ih, appendValues_eq]

/-- The loop of lines 110-121 computes the comma-join of the items in the spec's wording. -/
theorem keywordStr_eq (ks : List KeyVal) :
    keywordStr ks = String.intercalate "," (keywordItems ks) := by
  simp [keywordStr, appendKeywords_eq]

/-- The loop never completes when some ad unit decodes but lacks identification. -/
theorem shapeLoop_not_done (env : Env) (aURI : String) (units : List PBSAdUnit) :
    ∀ (k : Nat) (unit : PBSAdUnit) (p : appnexusParams), units[k]? = some unit →
      env.unmarshalParams unit.Params = .ok p → missingIdentification p →
      ∀ i uri imps uri1 imps1, shapeLoop env aURI i units uri imps ≠ .done uri1 imps1 := by
  induction units with
  | nil => intro k unit p hk; simp at hk
  | cons u rest ih =>
    intro k unit p hk hp hmiss i uri imps uri1 imps1
    cases k with
    | zero =>
      simp only [List.getElem?_cons_zero, Option.some.injEq] at hk
      subst hk
      simp [shapeLoop, hp, hmiss]
    | succ k =>
      simp only [List.getElem?_cons_succ] at hk
      unfold shapeLoop
      cases hu : env.unmarshalParams u.Params with
      | err e => simp
      | ok p0 =>
        by_cases hm0 : missingIdentification p0
        · simp [hm0]
        · cases hi : imps[i]? with
          | none => simp [hm0]
          | some imp => simpa [hm0] using ih k unit p hk hp hmiss _ _ _ uri1 imps1

/-- The loop ends in an error when some ad unit decodes but lacks identification and every ad
unit before it has an impression at its index. -/
theorem shapeLoop_error (env : Env) (aURI : String) (units : List PBSAdUnit) :
    ∀ (k : Nat) (unit : PBSAdUnit) (p : appnexusParams), units[k]? = some unit →
      env.unmarshalParams unit.Params = .ok p → missingIdentification p →
      ∀ i uri imps, i + k ≤ imps.length →
        ∃ msg, shapeLoop env aURI i units uri imps = .error msg := by
  induction units with
  | nil => intro k unit p hk; simp at hk
  | cons u rest ih =>
    intro k unit p hk hp hmiss i uri imps hlen
    cases k with
    | zero =>
      simp only [List.getElem?_cons_zero, Option.some.injEq] at hk
      subst hk
      exact ⟨"No placement or member+invcode provided", by simp [shapeLoop, hp, hmiss]⟩
    | succ k =>
      simp only [List.getElem?_cons_succ] at hk
      unfold shapeLoop
      cases hu : env.unmarshalParams u.Params with
      | err e => exact ⟨e, rfl⟩
      | ok p0 =>
        by_cases hm0 : missingIdentification p0
        · exact ⟨"No placement or member+invcode provided", by simp [hm0]⟩
        · have hi : i < imps.length := by omega
          obtain ⟨msg, hmsg⟩ := ih k unit p hk hp hmiss (i + 1) (nextURI aURI p0 uri)
            (imps.set i (shapeImp env p0 imps[i])) (by simp; omega)
          exact ⟨msg, by simp [hm0, List.getElem?_eq_getElem hi, hmsg]⟩

/-- The loop ends in the identification error when, in addition, every ad unit before the
offending one decodes and is identified. -/
theorem shapeLoop_error_message (env : Env) (aURI : String) (units : List PBSAdUnit) :
    ∀ (k : Nat) (unit : PBSAdUnit) (p : appnexusParams), units[k]? = some unit →
      env.unmarshalParams unit.Params = .ok p → missingIdentification p →
      (∀ j, j < k → ∃ u q, units[j]? = some u ∧ env.unmarshalParams u.Params = .ok q ∧
        ¬ missingIdentification q) →
      ∀ i uri imps, i + k ≤ imps.length →
        shapeLoop env aURI i units uri imps = .error "No placement or member+invcode provided" := by
  induction units with
  | nil => intro k unit p hk; simp at hk
  | cons u rest ih =>
    intro k unit p hk hp hmiss hbefore i uri imps hlen
    cases k with
    | zero =>
      simp only [List.getElem?_cons_zero, Option.some.injEq] at hk
      subst hk
      simp [shapeLoop, hp, hmiss]
    | succ k =>
      simp only [List.getElem?_cons_succ] at hk
      obtain ⟨u0, q0, hu0, hq0, hid0⟩ := hbefore 0 (Nat.succ_pos k)
      simp only [List.getElem?_cons_zero, Option.some.injEq] at hu0
      subst hu0
      have hi : i < imps.length := by omega
      have hrest : ∀ j, j < k → ∃ u q, rest[j]? = some u ∧
          env.unmarshalParams u.Params = .ok q ∧ ¬ missingIdentification q := by
        intro j hj
        simpa using hbefore (j + 1) (by omega)
      have := ih k unit p hk hp hmiss hrest (i + 1) (nextURI aURI q0 uri)
        (imps.set i (shapeImp env q0 imps[i])) (by simp; omega)
      simp [shapeLoop, hq0, hid0, List.getElem?_eq_getElem hi, this]

/-- The loop ends in the decoding error of an ad unit when every ad unit before it decodes, is
identified and has an impression at its index. -/
theorem shapeLoop_decode_error (env : Env) (aURI : String) (units : List PBSAdUnit) :
    ∀ (j : Nat) (unit : PBSAdUnit) (e : String), units[j]? = some unit →
      env.unmarshalParams unit.Params = .err e →
      (∀ m, m < j → ∃ u q, units[m]? = some u ∧ env.unmarshalParams u.Params = .ok q ∧
        ¬ missingIdentification q) →
      ∀ i uri imps, i + j ≤ imps.length →
        shapeLoop env aURI i units uri imps = .error e := by
  induction units with
  | nil => intro j unit e hj; simp at hj
  | cons u rest ih =>
    intro j unit e hj he hbefore i uri imps hlen
    cases j with
    | zero =>
      simp only [List.getElem?_cons_zero, Option.some.injEq] at hj
      subst hj
      simp [shapeLoop, he]
    | succ j =>
      simp only [List.getElem?_cons_succ] at hj
      obtain ⟨u0, q0, hu0, hq0, hid0⟩ := hbefore 0 (Nat.succ_pos j)
      simp only [List.getElem?_cons_zero, Option.some.injEq] at hu0
      subst hu0
      have hi : i < imps.length := by omega
      have hrest : ∀ m, m < j → ∃ u q, rest[m]? = some u ∧
          env.unmarshalParams u.Params = .ok q ∧ ¬ missingIdentification q := by
        intro m hm
        simpa using hbefore (m + 1) (by omega)
      have := ih j unit e hj he hrest (i + 1) (nextURI aURI q0 uri)
        (imps.set i (shapeImp env q0 imps[i])) (by simp; omega)
      simp [shapeLoop, hq0, hid0, List.getElem?_eq_getElem hi, this]

/-- The loop leaves the impressions below its starting index as they are. -/
theorem shapeLoop_below (env : Env) (aURI : String) (units : List PBSAdUnit) :
    ∀ i uri imps uri1 imps1, shapeLoop env aURI i units uri imps = .done uri1 imps1 →
      ∀ m, m < i → imps1[m]? = imps[m]? := by
  induction units with
  | nil =>
    intro i uri imps uri1 imps1 h m _
    simp only [shapeLoop, LoopResult.done.injEq] at h
    rw [h.2]
  | cons u rest ih =>
    intro i uri imps uri1 imps1 h m hm
    unfold shapeLoop at h
    cases hu : env.unmarshalParams u.Params with
    | err e => simp [hu] at h
    | ok p0 =>
      by_cases hm0 : missingIdentification p0
      · simp [hu, hm0] at h
      · cases hi : imps[i]? with
        | none => simp [hu, hm0, hi] at h
        | some imp =>
          simp only [hu, hm0, hi, if_false] at h
          rw [ih _ _ _ _ _ h m (by omega)]
          exact List.getElem?_set_ne (by omega)

/-- After a completed loop, the impression at the index of an ad unit carries the extension
encoded from that ad unit's parameters. -/
theorem shapeLoop_ext (env : Env) (aURI : String) (units : List PBSAdUnit) :
    ∀ i uri imps uri1 imps1, shapeLoop env aURI i units uri imps = .done uri1 imps1 →
      ∀ j unit p, units[j]? = some unit → env.unmarshalParams unit.Params = .ok p →
        ∃ imp, imps1[i + j]? = some imp ∧ imp.Ext = env.marshalImpExt (mkImpExt p) := by
  induction units with
  | nil => intro i uri imps uri1 imps1 _ j unit p hj; simp at hj
  | cons u rest ih =>
    intro i uri imps uri1 imps1 h j unit p hj hp
    unfold shapeLoop at h
    cases hu : env.unmarshalParams u.Params with
    | err e => simp [hu] at h
    | ok p0 =>
      by_cases hm0 : missingIdentification p0
      · simp [hu, hm0] at h
      · cases hi : imps[i]? with
        | none => simp [hu, hm0, hi] at h
        | some imp =>
          simp only [hu, hm0, hi, if_false] at h
          cases j with
          | zero =>
            simp only [List.getElem?_cons_zero, Option.some.injEq] at hj
            subst hj
            rw [hu] at hp
            cases hp
            have hlt : i < imps.length := by
              by_contra hge
              rw [List.getElem?_eq_none (by omega)] at hi
              cases hi
            refine ⟨shapeImp env p imp, ?_, rfl⟩
            rw [Nat.add_zero, shapeLoop_below env aURI rest _ _ _ _ _ h i (Nat.lt_succ_self i)]
            simp [List.getElem?_set_self, hlt]
          | succ j =>
            simp only [List.getElem?_cons_succ] at hj
            obtain ⟨imp1, h1, h2⟩ := ih _ _ _ _ _ h j unit p hj hp
            exact ⟨imp1, by rw [← h1]; congr 1; omega, h2⟩

/-! ## The shape of a run of `Call` -/

/-- A run that handed a request to the transport got through the builder, the loop over the ad
units, the encoder and `http.NewRequest`; the request is the one of lines 145-147, and the run
ends as lines 149-212 say. -/
theorem Call_sent (env : Env) (a : XhbAdapter) (req : PBSRequest) (bidder : PBSBidder)
    (r : HTTPRequest) (h : (Call env a req bidder).requests = [r]) :
    ∃ anReq uri imps reqJSON,
      env.MakeOpenRTBGeneric req bidder a.FamilyName supportedMediaTypes true = .ok anReq ∧
      shapeLoop env a.URI 0 bidder.AdUnits a.URI anReq.Imp = .done uri imps ∧
      env.marshalBidRequest { anReq with Imp := imps } = .ok reqJSON ∧
      r = mkHTTPRequest uri reqJSON ∧
      ∀ resp, env.Do r = .ok resp → ∃ debug,
        (Call env a req bidder).out = (handleResponse env req bidder imps debug resp).1 := by
  unfold Call at h ⊢
  cases hb : env.MakeOpenRTBGeneric req bidder a.FamilyName supportedMediaTypes true with
  | err e => simp [hb] at h
  | ok anReq =>
    cases hl : shapeLoop env a.URI 0 bidder.AdUnits a.URI anReq.Imp with
    | error e => simp [hb, hl] at h
    | panic => simp [hb, hl] at h
    | done uri imps =>
      cases hm : env.marshalBidRequest { anReq with Imp := imps } with
      | err e => simp [hb, hl, hm] at h
      | ok reqJSON =>
        cases hn : env.newRequestOk "POST" uri with
        | false => simp [hb, hl, hm, hn] at h
        | true =>
          have hr : r = mkHTTPRequest uri reqJSON := by
            cases hd : env.Do (mkHTTPRequest uri reqJSON) with
            | err e => simp [hb, hl, hm, hn, hd] at h; exact h.symm
            | ok resp => simp [hb, hl, hm, hn, hd] at h; exact h.symm
          refine ⟨anReq, uri, imps, reqJSON, rfl, hl, hm, hr, ?_⟩
          intro resp hd
          rw [hr] at hd
          refine ⟨{ RequestURI := uri, RequestBody := if req.IsDebug then reqJSON else "",
                    ResponseBody := "", StatusCode := 0 }, ?_⟩
          simp [hb, hl, hm, hn, hd]

/-- Lines 156-158: a 204 ends the call with no bids and no error. -/
theorem handleResponse_204 (env : Env) (req : PBSRequest) (bidder : PBSBidder) (imps : List Imp)
    (debug : BidderDebug) (resp : HTTPResponse) (h : resp.StatusCode = 204) :
    (handleResponse env req bidder imps debug resp).1 = .bids [] := by
  simp [handleResponse, h]

/-- Lines 161-169: a status other than 200 and 204 ends the call with the status error. -/
theorem handleResponse_status (env : Env) (req : PBSRequest) (bidder : PBSBidder)
    (imps : List Imp) (debug : BidderDebug) (resp : HTTPResponse) (b : String)
    (h200 : resp.StatusCode ≠ 200) (h204 : resp.StatusCode ≠ 204) (hb : resp.Body = .ok b) :
    (handleResponse env req bidder imps debug resp).1 =
      .error ("HTTP status " ++ toString resp.StatusCode ++ "; body: " ++ b) := by
  simp [handleResponse, h200, h204, hb]

/-- Lines 171-212: a 200 whose body is read and decoded ends as the translation says. -/
theorem handleResponse_200 (env : Env) (req : PBSRequest) (bidder : PBSBidder) (imps : List Imp)
    (debug : BidderDebug) (resp : HTTPResponse) (body : String) (bidResp : BidResponse)
    (h200 : resp.StatusCode = 200) (hb : resp.Body = .ok body)
    (hd : env.unmarshalBidResponse body = .ok bidResp) :
    (handleResponse env req bidder imps debug resp).1 =
      match translated bidder imps [] (allBids bidResp.SeatBid) with
      | .err e => .error e
      | .ok bids => .bids bids := by
  simp only [handleResponse, h200, hb, hd, translateSeatBids_eq]
  cases translated bidder imps [] (allBids bidResp.SeatBid) <;> simp

/-- A 200 that ends in bids had its body read and decoded. -/
theorem handleResponse_200_bids (env : Env) (req : PBSRequest) (bidder : PBSBidder)
    (imps : List Imp) (debug : BidderDebug) (resp : HTTPResponse) (bids : List PBSBid)
    (h200 : resp.StatusCode = 200)
    (h : (handleResponse env req bidder imps debug resp).1 = .bids bids) :
    ∃ body bidResp, resp.Body = .ok body ∧ env.unmarshalBidResponse body = .ok bidResp := by
  cases hb : resp.Body with
  | err e => simp [handleResponse, h200, hb] at h
  | ok body =>
    cases hd : env.unmarshalBidResponse body with
    | err e => simp [handleResponse, h200, hb, hd] at h
    | ok bidResp => exact ⟨body, bidResp, rfl, hd⟩

/-- The loop panics when every ad unit decodes and is identified but the impression list runs
out before the ad units do. -/
theorem shapeLoop_panic (env : Env) (aURI : String) (units : List PBSAdUnit) :
    (∀ u ∈ units, ∃ p, env.unmarshalParams u.Params = .ok p ∧ ¬ missingIdentification p) →
    ∀ i uri imps, i ≤ imps.length → imps.length < i + units.length →
      shapeLoop env aURI i units uri imps = .panic := by
  induction units with
  | nil => intro _ i uri imps h1 h2; simp at h2; omega
  | cons u rest ih =>
    intro hall i uri imps h1 h2
    obtain ⟨p, hp, hid⟩ := hall u (List.mem_cons_self _ _)
    by_cases hi : i < imps.length
    · have := ih (fun v hv => hall v (List.mem_cons_of_mem _ hv)) (i + 1) (nextURI aURI p uri)
        (imps.set i (shapeImp env p imps[i])) (by simp; omega)
        (by simp only [List.length_set, List.length_cons] at h2 ⊢; omega)
      simp [shapeLoop, hp, hid, List.getElem?_eq_getElem hi, this]
    · simp [shapeLoop, hp, hid, List.getElem?_eq_none (Nat.le_of_not_lt hi)]

/-- A run whose loop ends in an error returns that error and sends nothing. -/
theorem Call_of_loop_error (env : Env) (a : XhbAdapter) (req : PBSRequest) (bidder : PBSBidder)
    (anReq : BidRequest) (msg : String)
    (hb : env.MakeOpenRTBGeneric req bidder a.FamilyName supportedMediaTypes true = .ok anReq)
    (hl : shapeLoop env a.URI 0 bidder.AdUnits a.URI anReq.Imp = .error msg) :
    Call env a req bidder = ⟨.error msg, [], bidder.Debug⟩ := by
  simp [Call, hb, hl]

/-- A run whose loop panics panics and sends nothing. -/
theorem Call_of_loop_panic (env : Env) (a : XhbAdapter) (req : PBSRequest) (bidder : PBSBidder)
    (anReq : BidRequest)
    (hb : env.MakeOpenRTBGeneric req bidder a.FamilyName supportedMediaTypes true = .ok anReq)
    (hl : shapeLoop env a.URI 0 bidder.AdUnits a.URI anReq.Imp = .panic) :
    Call env a req bidder = ⟨.panic, [], bidder.Debug⟩ := by
  simp [Call, hb, hl]

/-- A run whose loop completes and whose request is encoded and built sends that request. -/
theorem Call_of_loop_done (env : Env) (a : XhbAdapter) (req : PBSRequest) (bidder : PBSBidder)
    (anReq : BidRequest) (uri : String) (imps : List Imp) (reqJSON : String)
    (hb : env.MakeOpenRTBGeneric req bidder a.FamilyName supportedMediaTypes true = .ok anReq)
    (hl : shapeLoop env a.URI 0 bidder.AdUnits a.URI anReq.Imp = .done uri imps)
    (hm : env.marshalBidRequest { anReq with Imp := imps } = .ok reqJSON)
    (hn : env.newRequestOk "POST" uri = true) :
    (Call env a req bidder).requests = [mkHTTPRequest uri reqJSON] := by
  cases hd : env.Do (mkHTTPRequest uri reqJSON) <;> simp [Call, hb, hl, hm, hn, hd]

/-- A run in which some ad unit decodes but lacks identification sends nothing and returns no
bids. -/
theorem Call_of_missing (env : Env) (a : XhbAdapter) (req : PBSRequest) (bidder : PBSBidder)
    (k : Nat) (unit : PBSAdUnit) (p : appnexusParams) (hk : bidder.AdUnits[k]? = some unit)
    (hp : env.unmarshalParams unit.Params = .ok p) (hmiss : missingIdentification p) :
    (Call env a req bidder).requests = [] ∧ ∀ bs, (Call env a req bidder).out ≠ .bids bs := by
  cases hb : env.MakeOpenRTBGeneric req bidder a.FamilyName supportedMediaTypes true with
  | err e => simp [Call, hb]
  | ok anReq =>
    cases hl : shapeLoop env a.URI 0 bidder.AdUnits a.URI anReq.Imp with
    | error e => simp [Call, hb, hl]
    | panic => simp [Call, hb, hl]
    | done uri imps =>
      exact absurd hl (shapeLoop_not_done env a.URI bidder.AdUnits k unit p hk hp hmiss _ _ _ _ _)

/-- A run panics whenever the builder returns fewer impressions than there are ad units and
every ad unit decodes and is identified. -/
theorem Call_panics_on_short_imp_list (env : Env) (a : XhbAdapter) (req : PBSRequest)
    (bidder : PBSBidder) (anReq : BidRequest)
    (hb : env.MakeOpenRTBGeneric req bidder a.FamilyName supportedMediaTypes true = .ok anReq)
    (hshort : anReq.Imp.length < bidder.AdUnits.length)
    (hall : ∀ u ∈ bidder.AdUnits,
      ∃ p, env.unmarshalParams u.Params = .ok p ∧ ¬ missingIdentification p) :
    (Call env a req bidder).out = .panic := by
  rw [Call_of_loop_panic env a req bidder anReq hb
    (shapeLoop_panic env a.URI bidder.AdUnits hall 0 a.URI anReq.Imp (Nat.zero_le _)
      (by simpa using hshort))]

/-! ## Properties of the adapter -/

/-- C2: once `Call` has handed its request `r` to the transport and the partner has answered with
the response `resp`: a status 204 makes the call return no bids and no error; a status other than
200 and 204 whose body reads as `b` makes the call return no bids and the error
`HTTP status <s>; body: <b>`, with `<s>` the decimal status and `<b>` the body as read. -/
theorem Call_status_handling (env : Env) (a : XhbAdapter) (req : PBSRequest) (bidder : PBSBidder)
    (r : HTTPRequest) (resp : HTTPResponse)
    (hsent : (Call env a req bidder).requests = [r]) (hresp : env.Do r = .ok resp) :
    (resp.StatusCode = 204 → (Call env a req bidder).out = .bids []) ∧
    (∀ b, resp.StatusCode ≠ 200 → resp.StatusCode ≠ 204 → resp.Body = .ok b →
      (Call env a req bidder).out =
        .error ("HTTP status " ++ toString resp.StatusCode ++ "; body: " ++ b)) := by
  obtain ⟨anReq, uri, imps, reqJSON, -, -, -, -, hout⟩ := Call_sent env a req bidder r hsent
  obtain ⟨debug, hout⟩ := hout resp hresp
  refine ⟨fun h => ?_, fun b h200 h204 hb => ?_⟩
  · rw [hout, handleResponse_204 _ _ _ _ _ _ h]
  · rw [hout, handleResponse_status _ _ _ _ _ _ b h200 h204 hb]

/-- C2 at work: a 204 gives no bids and no error, and a 503 with body `down` gives the error
`HTTP status 503; body: down`. -/
theorem Call_status_handling_witness :
    ((Call (exampleEnv (.ok ⟨204, .ok ""⟩) (.err "")) exampleAdapter ⟨false⟩ placementBidder).requests
        = [placementRequest] ∧
      (Call (exampleEnv (.ok ⟨204, .ok ""⟩) (.err "")) exampleAdapter ⟨false⟩ placementBidder).out
        = .bids []) ∧
    ((Call (exampleEnv (.ok ⟨503, .ok "down"⟩) (.err "")) exampleAdapter ⟨false⟩ placementBidder).requests
        = [placementRequest] ∧
      (Call (exampleEnv (.ok ⟨503, .ok "down"⟩) (.err "")) exampleAdapter ⟨false⟩ placementBidder).out
        = .error "HTTP status 503; body: down") :=
  ⟨⟨by decide,
    (Call_status_handling (exampleEnv (.ok ⟨204, .ok ""⟩) (.err "")) exampleAdapter ⟨false⟩
      placementBidder placementRequest ⟨204, .ok ""⟩ (by decide) rfl).1 rfl⟩,
   ⟨by decide,
    (Call_status_handling (exampleEnv (.ok ⟨503, .ok "down"⟩) (.err "")) exampleAdapter ⟨false⟩
      placementBidder placementRequest ⟨503, .ok "down"⟩ (by decide) rfl).2 "down"
        (by decide) (by decide) rfl⟩⟩

/-- C3: when the partner answers the request of `Call` with a status 200 and `Call` returns bids
without error, the body was read and decoded, and the returned bids match the reported bids of
the response one to one in response order: each returned bid has as `BidID` the value of
`bidder.LookupBidID` at the impression id of its reported bid, and that value is not empty. -/
theorem Call_bid_ids_looked_up (env : Env) (a : XhbAdapter) (req : PBSRequest)
    (bidder : PBSBidder) (r : HTTPRequest) (resp : HTTPResponse) (bids : List PBSBid)
    (hsent : (Call env a req bidder).requests = [r]) (hresp : env.Do r = .ok resp)
    (h200 : resp.StatusCode = 200) (hout : (Call env a req bidder).out = .bids bids) :
    ∃ body bidResp, resp.Body = .ok body ∧ env.unmarshalBidResponse body = .ok bidResp ∧
      List.Forall₂ (fun pb b => pb.BidID = bidder.LookupBidID b.ImpID ∧ pb.BidID ≠ "")
        bids (allBids bidResp.SeatBid) := by
  obtain ⟨anReq, uri, imps, reqJSON, -, -, -, -, hc⟩ := Call_sent env a req bidder r hsent
  obtain ⟨debug, hc⟩ := hc resp hresp
  rw [hc] at hout
  obtain ⟨body, bidResp, hb, hd⟩ := handleResponse_200_bids env req bidder imps debug resp bids h200 hout
  refine ⟨body, bidResp, hb, hd, ?_⟩
  rw [handleResponse_200 env req bidder imps debug resp body bidResp h200 hb hd] at hout
  cases ht : translated bidder imps [] (allBids bidResp.SeatBid) with
  | err e => simp [ht] at hout
  | ok bs =>
    simp only [ht, Outcome.bids.injEq] at hout
    subst hout
    unfold translated at ht
    cases hm : firstMiss bidder (allBids bidResp.SeatBid) with
    | some b => simp [hm] at ht
    | none =>
      simp only [hm, List.nil_append, Result.ok.injEq] at ht
      subst ht
      refine forall₂_map_of_forall _ _ _ fun b hbm => ⟨rfl, ?_⟩
      have := List.find?_eq_none.mp hm b hbm
      simpa [mkPBSBid] using this

/-- C3 at work: the three reported bids for `u1` come back as three bids with identifier `b1`,
the value of the lookup at `u1`. -/
theorem Call_bid_ids_looked_up_witness :
    (Call (exampleEnv (.ok ⟨200, .ok "body"⟩) (.ok threeBids)) exampleAdapter ⟨false⟩
        placementBidder).requests = [placementRequest] ∧
    (Call (exampleEnv (.ok ⟨200, .ok "body"⟩) (.ok threeBids)) exampleAdapter ⟨false⟩
        placementBidder).out = .bids [u1Bid, u1Bid, u1Bid] ∧
    ∃ body bidResp, (HTTPResponse.mk 200 (.ok "body")).Body = .ok body ∧
      (exampleEnv (.ok ⟨200, .ok "body"⟩) (.ok threeBids)).unmarshalBidResponse body = .ok bidResp ∧
      List.Forall₂ (fun pb b => pb.BidID = placementBidder.LookupBidID b.ImpID ∧ pb.BidID ≠ "")
        [u1Bid, u1Bid, u1Bid] (allBids bidResp.SeatBid) :=
  ⟨by decide, rfl,
   Call_bid_ids_looked_up (exampleEnv (.ok ⟨200, .ok "body"⟩) (.ok threeBids)) exampleAdapter
     ⟨false⟩ placementBidder placementRequest ⟨200, .ok "body"⟩ [u1Bid, u1Bid, u1Bid]
     (by decide) rfl rfl rfl⟩

/-- C4: when the partner answers the request of `Call` with a status 200 whose body is read and
decoded, and some reported bid `b0`, in whatever seat group and position, has an impression id
at which `bidder.LookupBidID` gives the empty string, then `Call` returns no bids and the error
`Unknown ad unit code '<id>'`, where `<id>` is the impression id of the first reported bid, in
response order, whose lookup misses; bids that resolved before it are not returned.  When the
impression id of `b0` is the only one that misses, `<id>` is the impression id of `b0`. -/
theorem Call_unknown_imp_is_error (env : Env) (a : XhbAdapter) (req : PBSRequest)
    (bidder : PBSBidder) (r : HTTPRequest) (resp : HTTPResponse) (body : String)
    (bidResp : BidResponse) (b0 : Bid)
    (hsent : (Call env a req bidder).requests = [r]) (hresp : env.Do r = .ok resp)
    (h200 : resp.StatusCode = 200) (hb : resp.Body = .ok body)
    (hd : env.unmarshalBidResponse body = .ok bidResp)
    (hmem0 : b0 ∈ allBids bidResp.SeatBid) (hmiss : bidder.LookupBidID b0.ImpID = "") :
    (∃ b, firstMiss bidder (allBids bidResp.SeatBid) = some b ∧
      b ∈ allBids bidResp.SeatBid ∧ bidder.LookupBidID b.ImpID = "" ∧
      (Call env a req bidder).out = .error ("Unknown ad unit code \x27" ++ b.ImpID ++ "\x27")) ∧
    (∀ bs, (Call env a req bidder).out ≠ .bids bs) ∧
    ((∀ b ∈ allBids bidResp.SeatBid, bidder.LookupBidID b.ImpID = "" → b.ImpID = b0.ImpID) →
      (Call env a req bidder).out = .error ("Unknown ad unit code \x27" ++ b0.ImpID ++ "\x27")) := by
  obtain ⟨anReq, uri, imps, reqJSON, -, -, -, -, hc⟩ := Call_sent env a req bidder r hsent
  obtain ⟨debug, hc⟩ := hc resp hresp
  rw [handleResponse_200 env req bidder imps debug resp body bidResp h200 hb hd] at hc
  cases hm : firstMiss bidder (allBids bidResp.SeatBid) with
  | none =>
    have := List.find?_eq_none.mp hm b0 hmem0
    simp [hmiss] at this
  | some b =>
    have hmem : b ∈ allBids bidResp.SeatBid := List.mem_of_find?_eq_some hm
    have hlk : bidder.LookupBidID b.ImpID = "" := by
      have := List.find?_some hm
      simpa using this
    have hout : (Call env a req bidder).out =
        .error ("Unknown ad unit code \x27" ++ b.ImpID ++ "\x27") := by
      rw [hc]; simp [translated, hm]
    refine ⟨⟨b, rfl, hmem, hlk, hout⟩, ?_, fun honly => ?_⟩
    · intro bs h
      rw [hout] at h
      cases h
    · rw [hout, honly b hmem hlk]

/-- C4 at work: the second seat group reports a bid for `u9`, which no ad unit has; the bid for
`u1` before it resolved, and still the call returns the error for `u9` and no bids. -/
theorem Call_unknown_imp_is_error_witness :
    (Call (exampleEnv (.ok ⟨200, .ok "body"⟩) (.ok strayBid)) exampleAdapter ⟨false⟩
        placementBidder).requests = [placementRequest] ∧
    exampleBid "u9" 1 ∈ allBids strayBid.SeatBid ∧
    placementBidder.LookupBidID (exampleBid "u9" 1).ImpID = "" ∧
    (Call (exampleEnv (.ok ⟨200, .ok "body"⟩) (.ok strayBid)) exampleAdapter ⟨false⟩
        placementBidder).out = .error "Unknown ad unit code \x27u9\x27" :=
  ⟨by decide, by decide, by decide,
   (Call_unknown_imp_is_error (exampleEnv (.ok ⟨200, .ok "body"⟩) (.ok strayBid)) exampleAdapter
     ⟨false⟩ placementBidder placementRequest ⟨200, .ok "body"⟩ "body" strayBid
     (exampleBid "u9" 1) (by decide) rfl rfl rfl rfl (by decide) (by decide)).2.2 (by decide)⟩

/-- C5, the code at the failing input: the partner reports one bid for `u1` at price 2.5 and the
lookup resolves; the bid `Call` returns carries the reported markup, creative id, width, height
and win-notify URL, but its price is the constant 0.01 of line 197, not the reported 2.5. -/
theorem Call_price_not_reported_price :
    (Call (exampleEnv (.ok ⟨200, .ok "body"⟩) (.ok ⟨[⟨[exampleBid "u1" 2.5], "s1"⟩]⟩))
        exampleAdapter ⟨false⟩ placementBidder).out = .bids [u1Bid] ∧
    u1Bid.Price = 0.01 ∧ (exampleBid "u1" 2.5).Price = 2.5 ∧
    u1Bid.Price ≠ (exampleBid "u1" 2.5).Price ∧
    u1Bid.Adm = (exampleBid "u1" 2.5).AdM ∧ u1Bid.Creative_id = (exampleBid "u1" 2.5).CrID ∧
    u1Bid.Width = (exampleBid "u1" 2.5).W ∧ u1Bid.Height = (exampleBid "u1" 2.5).H ∧
    u1Bid.NURL = (exampleBid "u1" 2.5).NURL := by
  refine ⟨rfl, rfl, rfl, ?_, rfl, rfl, rfl, rfl, rfl⟩
  show (0.01 : Rat) ≠ 2.5
  norm_num

/-- C6: when the partner answers the request of `Call` with a status 200 whose body is read and
decoded and every reported bid resolves, `Call` returns a list with as many bids as the seat
groups of the response hold together, and its entries match the reported bids one to one in
response order (seat groups in order, bids of a group in order): each entry carries the
impression id, looked-up identifier, markup, creative id, width, height and win-notify URL of
the reported bid at the same position.  Reported bids for one impression id are all kept. -/
theorem Call_keeps_count_and_order (env : Env) (a : XhbAdapter) (req : PBSRequest)
    (bidder : PBSBidder) (r : HTTPRequest) (resp : HTTPResponse) (body : String)
    (bidResp : BidResponse)
    (hsent : (Call env a req bidder).requests = [r]) (hresp : env.Do r = .ok resp)
    (h200 : resp.StatusCode = 200) (hb : resp.Body = .ok body)
    (hd : env.unmarshalBidResponse body = .ok bidResp)
    (hall : ∀ b ∈ allBids bidResp.SeatBid, bidder.LookupBidID b.ImpID ≠ "") :
    ∃ bids, (Call env a req bidder).out = .bids bids ∧
      bids.length = (allBids bidResp.SeatBid).length ∧
      List.Forall₂ (ProducedFrom bidder) bids (allBids bidResp.SeatBid) := by
  obtain ⟨anReq, uri, imps, reqJSON, -, -, -, -, hc⟩ := Call_sent env a req bidder r hsent
  obtain ⟨debug, hc⟩ := hc resp hresp
  rw [handleResponse_200 env req bidder imps debug resp body bidResp h200 hb hd] at hc
  have hm : firstMiss bidder (allBids bidResp.SeatBid) = none := by
    unfold firstMiss
    rw [List.find?_eq_none]
    intro b hbm
    simpa using hall b hbm
  refine ⟨(allBids bidResp.SeatBid).map
      fun b => mkPBSBid bidder imps (bidder.LookupBidID b.ImpID) b, ?_, by simp, ?_⟩
  · rw [hc]; simp [translated, hm]
  · exact forall₂_map_of_forall _ _ _ fun b _ => ⟨rfl, rfl, rfl, rfl, rfl, rfl, rfl⟩

/-- C6 at work: two seat groups reporting two and one bids for the same impression `u1` give
three bids, in that order. -/
theorem Call_keeps_count_and_order_witness :
    (Call (exampleEnv (.ok ⟨200, .ok "body"⟩) (.ok threeBids)) exampleAdapter ⟨false⟩
        placementBidder).requests = [placementRequest] ∧
    (∀ b ∈ allBids threeBids.SeatBid, placementBidder.LookupBidID b.ImpID ≠ "") ∧
    (allBids threeBids.SeatBid).length = 3 ∧
    ∃ bids, (Call (exampleEnv (.ok ⟨200, .ok "body"⟩) (.ok threeBids)) exampleAdapter ⟨false⟩
        placementBidder).out = .bids bids ∧
      bids.length = (allBids threeBids.SeatBid).length ∧
      List.Forall₂ (ProducedFrom placementBidder) bids (allBids threeBids.SeatBid) :=
  ⟨by decide, by decide, rfl,
   Call_keeps_count_and_order (exampleEnv (.ok ⟨200, .ok "body"⟩) (.ok threeBids)) exampleAdapter
     ⟨false⟩ placementBidder placementRequest ⟨200, .ok "body"⟩ "body" threeBids
     (by decide) rfl rfl rfl rfl (by decide)⟩

/-- C9: `getMediaTypeForImp` returns `video` exactly when the list has an impression with the
given id and the first such impression has a video object; it returns `banner` in every other
case (no impression with that id, or the first one has no video object), and never a third
value. -/
theorem getMediaTypeForImp_spec (impId : String) (imps : List Imp) :
    (getMediaTypeForImp impId imps = "video" ↔
      ∃ imp, imps.find? (fun i => decide (i.ID = impId)) = some imp ∧ imp.Video ≠ none) ∧
    (¬ (∃ imp, imps.find? (fun i => decide (i.ID = impId)) = some imp ∧ imp.Video ≠ none) →
      getMediaTypeForImp impId imps = "banner") ∧
    (getMediaTypeForImp impId imps = "video" ∨ getMediaTypeForImp impId imps = "banner") := by
  induction imps with
  | nil => simp [getMediaTypeForImp]
  | cons imp rest ih =>
    by_cases hid : imp.ID = impId
    · cases hv : imp.Video with
      | none => simp [getMediaTypeForImp, hid, hv]
      | some v => simp [getMediaTypeForImp, hid, hv]
    · simpa [getMediaTypeForImp, hid] using ih

/-- C1, amended: let some ad unit, at index `k`, decode to parameters with
`PlacementId = 0` and an empty `InvCode` or `Member`.  Then `Call` hands no request to the
transport and returns no bids.  If the builder fails, or it succeeds and every ad unit before
index `k` has an impression at its index, `Call` returns an error.  Which error: if the builder
succeeds, every ad unit before index `k` has an impression at its index, and each of them
decodes and is identified, the error is `No placement or member+invcode provided`; if the
builder fails with `e`, the error is `e`; if the builder succeeds and some ad unit, at index
`j`, fails to decode with `e` while every ad unit before index `j` decodes, is identified and
has an impression at its index, the error is `e`. -/
theorem Call_missing_identification (env : Env) (a : XhbAdapter) (req : PBSRequest)
    (bidder : PBSBidder) (k : Nat) (unit : PBSAdUnit) (params : appnexusParams)
    (hunit : bidder.AdUnits[k]? = some unit)
    (hparse : env.unmarshalParams unit.Params = .ok params)
    (hmiss : params.PlacementId = 0 ∧ (params.InvCode = "" ∨ params.Member = "")) :
    (Call env a req bidder).requests = [] ∧
    (∀ bs, (Call env a req bidder).out ≠ .bids bs) ∧
    ((∀ anReq, env.MakeOpenRTBGeneric req bidder a.FamilyName supportedMediaTypes true = .ok anReq →
        k ≤ anReq.Imp.length) →
      ∃ msg, (Call env a req bidder).out = .error msg) ∧
    (∀ anReq, env.MakeOpenRTBGeneric req bidder a.FamilyName supportedMediaTypes true = .ok anReq →
      k ≤ anReq.Imp.length →
      (∀ j, j < k → ∃ u q, bidder.AdUnits[j]? = some u ∧ env.unmarshalParams u.Params = .ok q ∧
        ¬ (q.PlacementId = 0 ∧ (q.InvCode = "" ∨ q.Member = ""))) →
      (Call env a req bidder).out = .error "No placement or member+invcode provided") ∧
    (∀ e, env.MakeOpenRTBGeneric req bidder a.FamilyName supportedMediaTypes true = .err e →
      (Call env a req bidder).out = .error e) ∧
    (∀ (anReq : BidRequest) (j : Nat) (u : PBSAdUnit) (e : String),
      env.MakeOpenRTBGeneric req bidder a.FamilyName supportedMediaTypes true = .ok anReq →
      bidder.AdUnits[j]? = some u → env.unmarshalParams u.Params = .err e →
      j ≤ anReq.Imp.length →
      (∀ m, m < j → ∃ v q, bidder.AdUnits[m]? = some v ∧ env.unmarshalParams v.Params = .ok q ∧
        ¬ (q.PlacementId = 0 ∧ (q.InvCode = "" ∨ q.Member = ""))) →
      (Call env a req bidder).out = .error e) := by
  obtain ⟨h1, h2⟩ := Call_of_missing env a req bidder k unit params hunit hparse hmiss
  refine ⟨h1, h2, ?_, ?_, ?_, ?_⟩
  · intro hrange
    cases hb : env.MakeOpenRTBGeneric req bidder a.FamilyName supportedMediaTypes true with
    | err e => exact ⟨e, by simp [Call, hb]⟩
    | ok anReq =>
      obtain ⟨msg, hmsg⟩ := shapeLoop_error env a.URI bidder.AdUnits k unit params hunit hparse
        hmiss 0 a.URI anReq.Imp (by simpa using hrange anReq hb)
      exact ⟨msg, by rw [Call_of_loop_error env a req bidder anReq msg hb hmsg]⟩
  · intro anReq hb hrange hbefore
    have := shapeLoop_error_message env a.URI bidder.AdUnits k unit params hunit hparse hmiss
      hbefore 0 a.URI anReq.Imp (by simpa using hrange)
    rw [Call_of_loop_error env a req bidder anReq _ hb this]
  · intro e hb
    simp [Call, hb]
  · intro anReq j u e hb hj he hrange hbefore
    have := shapeLoop_decode_error env a.URI bidder.AdUnits j u e hj he hbefore 0 a.URI
      anReq.Imp (by simpa using hrange)
    rw [Call_of_loop_error env a req bidder anReq _ hb this]

/-- C1 at work: the second of two ad units lacks identification.  When the first names a
placement, the call sends nothing and returns the identification error; when the blob of the
first is not JSON, the call sends nothing and returns the decoding error of the first. -/
theorem Call_missing_identification_witness :
    placedThenUnidentified.AdUnits[1]? = some (bannerUnit "u2" "b2" emptyObjectBlob) ∧
    garbledThenUnidentified.AdUnits[1]? = some (bannerUnit "u2" "b2" emptyObjectBlob) ∧
    idleEnv.unmarshalParams (bannerUnit "u2" "b2" emptyObjectBlob).Params =
      .ok ⟨0, "", "", [], "", 0, ""⟩ ∧
    (Call idleEnv exampleAdapter ⟨false⟩ placedThenUnidentified).requests = [] ∧
    (Call idleEnv exampleAdapter ⟨false⟩ placedThenUnidentified).out =
      .error "No placement or member+invcode provided" ∧
    (Call idleEnv exampleAdapter ⟨false⟩ garbledThenUnidentified).requests = [] ∧
    (Call idleEnv exampleAdapter ⟨false⟩ garbledThenUnidentified).out =
      .error "unexpected end of JSON input" :=
  ⟨rfl, rfl, by decide,
   (Call_missing_identification idleEnv exampleAdapter ⟨false⟩ placedThenUnidentified 1
      (bannerUnit "u2" "b2" emptyObjectBlob) ⟨0, "", "", [], "", 0, ""⟩ rfl (by decide)
      ⟨rfl, Or.inl rfl⟩).1,
   (Call_missing_identification idleEnv exampleAdapter ⟨false⟩ placedThenUnidentified 1
      (bannerUnit "u2" "b2" emptyObjectBlob) ⟨0, "", "", [], "", 0, ""⟩ rfl (by decide)
      ⟨rfl, Or.inl rfl⟩).2.2.2.1 _ rfl (by decide)
      (fun j hj => ⟨bannerUnit "u1" "b1" placementBlob, ⟨123, "", "", [], "", 0, ""⟩,
        by
          have hj0 : j = 0 := by omega
          subst hj0
          exact ⟨rfl, by decide, by decide⟩⟩),
   (Call_missing_identification idleEnv exampleAdapter ⟨false⟩ garbledThenUnidentified 1
      (bannerUnit "u2" "b2" emptyObjectBlob) ⟨0, "", "", [], "", 0, ""⟩ rfl (by decide)
      ⟨rfl, Or.inl rfl⟩).1,
   (Call_missing_identification idleEnv exampleAdapter ⟨false⟩ garbledThenUnidentified 1
      (bannerUnit "u2" "b2" emptyObjectBlob) ⟨0, "", "", [], "", 0, ""⟩ rfl (by decide)
      ⟨rfl, Or.inl rfl⟩).2.2.2.2.2 _ 0 (bannerUnit "u1" "b1" "") "unexpected end of JSON input"
      rfl rfl (by decide) (by decide) (fun m hm => absurd hm (Nat.not_lt_zero m))⟩

/-- C1, counterexample to the unamended statement: the second ad unit decodes and lacks identification, but the
blob of the first is not JSON; `Call` returns the decoding error of the first ad unit, not
`No placement or member+invcode provided`. -/
theorem Call_missing_identification_counterexample :
    garbledThenUnidentified.AdUnits[1]? = some (bannerUnit "u2" "b2" emptyObjectBlob) ∧
    idleEnv.unmarshalParams (bannerUnit "u2" "b2" emptyObjectBlob).Params =
      .ok ⟨0, "", "", [], "", 0, ""⟩ ∧
    (Call idleEnv exampleAdapter ⟨false⟩ garbledThenUnidentified).out =
      .error "unexpected end of JSON input" ∧
    (Call idleEnv exampleAdapter ⟨false⟩ garbledThenUnidentified).out ≠
      .error "No placement or member+invcode provided" := by
  refine ⟨rfl, by decide, by decide, by decide⟩

/-- C7, amended: for a single ad unit that decodes to a non-empty inventory code and
a non-empty member, whatever its placement identifier, and a built request with at least one
impression, the loop resolves the destination URI to `a.URI` followed by `?member_id=` and the
member, and sets the `TagID` of the first impression to the inventory code; when the request is
then encoded and built, that URI is the one `Call` sends it to. -/
theorem Call_member_uri_and_tag (env : Env) (a : XhbAdapter) (req : PBSRequest)
    (bidder : PBSBidder) (unit : PBSAdUnit) (p : appnexusParams) (anReq : BidRequest)
    (imp0 : Imp) (rest : List Imp)
    (hunits : bidder.AdUnits = [unit]) (hparse : env.unmarshalParams unit.Params = .ok p)
    (hcode : p.InvCode ≠ "") (hmember : p.Member ≠ "")
    (hbuild : env.MakeOpenRTBGeneric req bidder a.FamilyName supportedMediaTypes true = .ok anReq)
    (himps : anReq.Imp = imp0 :: rest) :
    ∃ imp, shapeLoop env a.URI 0 bidder.AdUnits a.URI anReq.Imp =
        .done (a.URI ++ "?member_id=" ++ p.Member) (imp :: rest) ∧
      imp.TagID = p.InvCode ∧
      ∀ reqJSON, env.marshalBidRequest { anReq with Imp := imp :: rest } = .ok reqJSON →
        env.newRequestOk "POST" (a.URI ++ "?member_id=" ++ p.Member) = true →
        (Call env a req bidder).requests =
          [mkHTTPRequest (a.URI ++ "?member_id=" ++ p.Member) reqJSON] := by
  have hid : ¬ missingIdentification p := fun h => h.2.elim hcode hmember
  have hloop : shapeLoop env a.URI 0 bidder.AdUnits a.URI anReq.Imp =
      .done (a.URI ++ "?member_id=" ++ p.Member) (shapeImp env p imp0 :: rest) := by
    simp [hunits, himps, shapeLoop, hparse, hid, nextURI, hcode, hmember]
  refine ⟨shapeImp env p imp0, hloop, by simp only [shapeImp, hcode]; split <;> rfl, ?_⟩
  intro reqJSON hm hn
  exact Call_of_loop_done env a req bidder anReq _ _ reqJSON hbuild hloop hm hn

/-- C7 at work: inventory code `abc` of member `42` gives the URI ending in `?member_id=42` and
the tag `abc`. -/
theorem Call_member_uri_and_tag_witness :
    invCodeBidder.AdUnits = [bannerUnit "u1" "b1" invCodeBlob] ∧
    idleEnv.unmarshalParams (bannerUnit "u1" "b1" invCodeBlob).Params =
      .ok ⟨0, "abc", "42", [], "", 0, ""⟩ ∧
    ∃ imp, shapeLoop idleEnv exampleAdapter.URI 0 invCodeBidder.AdUnits exampleAdapter.URI
        [⟨"u1", some ⟨300, 250, none⟩, none, "", 0, ""⟩] =
        .done (exampleAdapter.URI ++ "?member_id=" ++ "42") (imp :: []) ∧
      imp.TagID = "abc" ∧
      ∀ reqJSON, idleEnv.marshalBidRequest { ID := "", Imp := imp :: [] } = .ok reqJSON →
        idleEnv.newRequestOk "POST" (exampleAdapter.URI ++ "?member_id=" ++ "42") = true →
        (Call idleEnv exampleAdapter ⟨false⟩ invCodeBidder).requests =
          [mkHTTPRequest (exampleAdapter.URI ++ "?member_id=" ++ "42") reqJSON] :=
  ⟨rfl, by decide,
   Call_member_uri_and_tag idleEnv exampleAdapter ⟨false⟩ invCodeBidder
     (bannerUnit "u1" "b1" invCodeBlob) ⟨0, "abc", "42", [], "", 0, ""⟩
     ⟨"", [⟨"u1", some ⟨300, 250, none⟩, none, "", 0, ""⟩]⟩
     ⟨"u1", some ⟨300, 250, none⟩, none, "", 0, ""⟩ [] rfl (by decide) (by decide) (by decide)
     (by decide) rfl⟩

/-- C7, counterexample to the unamended statement: for the single ad unit with inventory code `abc` and member
`42` and no placement, `Call` sends its request to `http://ib.adnxs.com/openrtb2?member_id=42`;
`account_id=42` does not occur in that URI, `member_id=42` does. -/
theorem Call_member_uri_counterexample :
    (Call idleEnv exampleAdapter ⟨false⟩ invCodeBidder).requests = [invCodeRequest] ∧
    invCodeRequest.URL = "http://ib.adnxs.com/openrtb2?member_id=42" ∧
    occursIn "account_id=42" invCodeRequest.URL = false ∧
    occursIn "member_id=42" invCodeRequest.URL = true := by
  refine ⟨by decide, rfl, by decide, by decide⟩

/-- C8: when `Call` sends its request `r`, the body of `r` encodes the built bid request with the
impressions the loop over the ad units has shaped, and in it, for every ad unit that decodes to
parameters `p`, the impression at the index of the ad unit carries
the encoded extension whose targeting string is the comma-join of the items of `p.Keywords`:
visiting the keywords in order, the bare key for a keyword with no values, else one `key=value`
item per value in value order.  For the keyword `age` with values `18` and `25` the string is
`age=18,age=25`. -/
theorem Call_keywords_flattened (env : Env) (a : XhbAdapter) (req : PBSRequest)
    (bidder : PBSBidder) (r : HTTPRequest) (hsent : (Call env a req bidder).requests = [r]) :
    (∃ built anReq,
      env.MakeOpenRTBGeneric req bidder a.FamilyName supportedMediaTypes true = .ok built ∧
      shapeLoop env a.URI 0 bidder.AdUnits a.URI built.Imp = .done r.URL anReq.Imp ∧
      env.marshalBidRequest anReq = .ok r.Body ∧
      ∀ (i : Nat) (unit : PBSAdUnit) (p : appnexusParams), bidder.AdUnits[i]? = some unit →
        env.unmarshalParams unit.Params = .ok p →
        ∃ imp : Imp, anReq.Imp[i]? = some imp ∧
          imp.Ext = env.marshalImpExt
            { Appnexus := { PlacementID := p.PlacementId
                            Keywords := String.intercalate "," (keywordItems p.Keywords)
                            TrafficSourceCode := p.TrafficSourceCode } }) ∧
    keywordStr [{ Key := "age", Values := ["18", "25"] }] = "age=18,age=25" ∧
    ∀ ks, keywordStr ks = String.intercalate "," (keywordItems ks) := by
  refine ⟨?_, by decide, keywordStr_eq⟩
  obtain ⟨anReq, uri, imps, reqJSON, hbuild, hl, hm, hr, -⟩ := Call_sent env a req bidder r hsent
  refine ⟨anReq, { anReq with Imp := imps }, hbuild, by rw [hl, hr]; rfl, by rw [hm, hr]; rfl, ?_⟩
  intro i unit p hi hp
  obtain ⟨imp, h1, h2⟩ := shapeLoop_ext env a.URI bidder.AdUnits _ _ _ _ _ hl i unit p hi hp
  refine ⟨imp, by simpa using h1, ?_⟩
  rw [h2, mkImpExt, keywordStr_eq]

/-- C8 at work: the ad unit with the keyword `age` and the values `18` and `25` is sent with
the targeting string `age=18,age=25` in its extension. -/
theorem Call_keywords_flattened_witness :
    (Call idleEnv exampleAdapter ⟨false⟩ keywordBidder).requests = [keywordRequest] ∧
    (∃ built anReq,
      idleEnv.MakeOpenRTBGeneric ⟨false⟩ keywordBidder exampleAdapter.FamilyName
        supportedMediaTypes true = .ok built ∧
      shapeLoop idleEnv exampleAdapter.URI 0 keywordBidder.AdUnits exampleAdapter.URI built.Imp =
        .done keywordRequest.URL anReq.Imp ∧
      idleEnv.marshalBidRequest anReq = .ok keywordRequest.Body ∧
      ∀ (i : Nat) (unit : PBSAdUnit) (p : appnexusParams), keywordBidder.AdUnits[i]? = some unit →
        idleEnv.unmarshalParams unit.Params = .ok p →
        ∃ imp : Imp, anReq.Imp[i]? = some imp ∧
          imp.Ext = idleEnv.marshalImpExt
            { Appnexus := { PlacementID := p.PlacementId
                            Keywords := String.intercalate "," (keywordItems p.Keywords)
                            TrafficSourceCode := p.TrafficSourceCode } }) ∧
    keywordStr [{ Key := "age", Values := ["18", "25"] }] = "age=18,age=25" :=
  ⟨by decide,
   (Call_keywords_flattened idleEnv exampleAdapter ⟨false⟩ keywordBidder keywordRequest
      (by decide)).1,
   (Call_keywords_flattened idleEnv exampleAdapter ⟨false⟩ keywordBidder keywordRequest
      (by decide)).2.1⟩

/-- C10, the code at the failing input: the builder succeeds and leaves out the second of two ad
units, so the built request has one impression; both ad units decode and are identified; the
loop of `Call` reaches index 1, which the impression list does not have, and the call panics. -/
theorem Call_index_out_of_range :
    idleEnv.MakeOpenRTBGeneric ⟨false⟩ secondUnitLeftOut exampleAdapter.FamilyName
        supportedMediaTypes true =
      .ok ⟨"", [⟨"u1", some ⟨300, 250, none⟩, none, "", 0, ""⟩]⟩ ∧
    secondUnitLeftOut.AdUnits.length = 2 ∧
    (Call idleEnv exampleAdapter ⟨false⟩ secondUnitLeftOut).out = .panic ∧
    (Call idleEnv exampleAdapter ⟨false⟩ secondUnitLeftOut).requests = [] := by
  refine ⟨by decide, rfl, by decide, by decide⟩

end Xhb
